import Mathlib

/-!
Shallow embedding of the incremental disk-usage analyzer core of gdu
(pkg/analyze: incremental.go, incremental_storage.go, incremental_stats.go
and the IOThrottle implementation), together with theorems settling the
frozen claims about it.

Modelling conventions:
* Go `time.Time` is modelled by `GoTime` (wall-clock seconds and
  nanoseconds); `time.Time.Equal` is whole-value equality on both fields.
* Go `time.Duration` and `int64` are modelled by `Int` (no wrap-around
  occurs in the ranges the claims concern); `float64` arithmetic in the
  derived statistics is modelled by exact rational arithmetic.
* Filesystem calls (`os.Stat`, `os.ReadDir`), the wall clock and the
  platform-specific attribute helpers are abstracted into an `Env` record
  supplying their results; the walker is then a pure function of that
  environment.
* The gob encoding of cache records is modelled by an explicit token
  serialization; BadgerDB is modelled by an association list from string
  keys to encoded token lists.
* Effects relevant to the claims (filesystem reads, cache loads and
  writes, progress messages, state-machine entries) are recorded in an
  event trace threaded through the walker state.
-/

/-- Wall-clock time with nanosecond precision, modelling Go `time.Time`. -/
structure GoTime where
  sec : Int
  nsec : Int
deriving DecidableEq, Repr

/-- Go `time.Time.Equal`: whole-value equality including nanoseconds. -/
def GoTime.Equal (a b : GoTime) : Bool :=
  a.sec == b.sec && a.nsec == b.nsec

/-- Total nanoseconds of an instant, used for duration arithmetic
(`time.Since(t) = now - t` as a `time.Duration`). -/
def GoTime.toNanos (t : GoTime) : Int :=
  t.sec * 1000000000 + t.nsec

/-- `CacheStats` from incremental_stats.go (counters and time fields;
the mutex is irrelevant in the sequential model). -/
structure CacheStats where
  totalDirs : Int
  cacheHits : Int
  cacheMisses : Int
  cacheExpired : Int
  dirsRescanned : Int
  bytesFromCache : Int
  bytesScanned : Int
  scanStartTime : GoTime
  scanEndTime : GoTime
  totalScanTime : Int
  cacheLoadTime : Int
deriving DecidableEq, Repr

/-- `NewCacheStats`: the zero-valued statistics record. -/
def NewCacheStats : CacheStats :=
  { totalDirs := 0, cacheHits := 0, cacheMisses := 0, cacheExpired := 0
    dirsRescanned := 0, bytesFromCache := 0, bytesScanned := 0
    scanStartTime := ⟨0, 0⟩, scanEndTime := ⟨0, 0⟩
    totalScanTime := 0, cacheLoadTime := 0 }

def CacheStats.incTotalDirs (s : CacheStats) : CacheStats :=
  { s with totalDirs := s.totalDirs + 1 }

def CacheStats.incCacheHits (s : CacheStats) : CacheStats :=
  { s with cacheHits := s.cacheHits + 1 }

def CacheStats.incCacheMisses (s : CacheStats) : CacheStats :=
  { s with cacheMisses := s.cacheMisses + 1 }

def CacheStats.incCacheExpired (s : CacheStats) : CacheStats :=
  { s with cacheExpired := s.cacheExpired + 1 }

def CacheStats.incDirsRescanned (s : CacheStats) : CacheStats :=
  { s with dirsRescanned := s.dirsRescanned + 1 }

def CacheStats.addBytesFromCache (s : CacheStats) (bytes : Int) : CacheStats :=
  { s with bytesFromCache := s.bytesFromCache + bytes }

def CacheStats.addBytesScanned (s : CacheStats) (bytes : Int) : CacheStats :=
  { s with bytesScanned := s.bytesScanned + bytes }

/-- `HitRate` from incremental_stats.go: returns a PERCENTAGE
(`float64(hits)/float64(total) * 100`), 0 when there were no lookups.
Go float64 division is modelled by exact rational division. -/
def CacheStats.HitRate (s : CacheStats) : ℚ :=
  let total : Int := s.cacheHits + s.cacheMisses
  if total = 0 then 0 else (s.cacheHits : ℚ) / (total : ℚ) * 100

/-- `IOReduction` from incremental_stats.go: returns a PERCENTAGE
(`float64(bytesFromCache)/float64(total) * 100`), 0 when no bytes were
accounted. -/
def CacheStats.IOReduction (s : CacheStats) : ℚ :=
  let total : Int := s.bytesFromCache + s.bytesScanned
  if total = 0 then 0 else (s.bytesFromCache : ℚ) / (total : ℚ) * 100

/-- `FileMetadata` from incremental_storage.go: metadata of one direct
child stored inline in a directory record. -/
structure FileMetadata where
  name : String
  isDir : Bool
  size : Int
  usage : Int
  mtime : GoTime
  flag : Char
  mli : Nat
deriving DecidableEq, Repr

/-- `IncrementalDirMetadata` from incremental_storage.go: the cache value
for one directory. -/
structure IncrementalDirMetadata where
  path : String
  mtime : GoTime
  size : Int
  usage : Int
  itemCount : Int
  flag : Char
  files : List FileMetadata
  cachedAt : GoTime
  scanDuration : Int
deriving DecidableEq, Repr

/-- Tokens of the serialized form of a record.  This stands in for the gob
byte encoding: a self-describing serialization whose only property the
development relies on is the round-trip law proved below. -/
inductive Tok where
  | str (s : String)
  | int (i : Int)
  | nat (n : Nat)
  | bool (b : Bool)
  | chr (c : Char)
  | time (t : GoTime)
deriving DecidableEq, Repr

/-- Serialize one child-metadata entry. -/
def encodeFileMetadata (f : FileMetadata) : List Tok :=
  [.str f.name, .bool f.isDir, .int f.size, .int f.usage,
   .time f.mtime, .chr f.flag, .nat f.mli]

/-- Deserialize one child-metadata entry, returning the remainder. -/
def decodeFileMetadata : List Tok → Option (FileMetadata × List Tok)
  | .str name :: .bool isDir :: .int size :: .int usage ::
      .time mtime :: .chr flag :: .nat mli :: rest =>
    some (⟨name, isDir, size, usage, mtime, flag, mli⟩, rest)
  | _ => none

/-- Deserialize a counted sequence of child-metadata entries. -/
def decodeFileList : Nat → List Tok → Option (List FileMetadata × List Tok)
  | 0, rest => some ([], rest)
  | n + 1, toks => do
    let (f, rest) ← decodeFileMetadata toks
    let (fs, rest) ← decodeFileList n rest
    some (f :: fs, rest)

/-- Serialize a directory record (the model of gob encoding in
`StoreDirMetadata`). -/
def encodeMeta (m : IncrementalDirMetadata) : List Tok :=
  [.str m.path, .time m.mtime, .int m.size, .int m.usage,
   .int m.itemCount, .chr m.flag, .nat m.files.length] ++
  (m.files.map encodeFileMetadata).flatten ++
  [.time m.cachedAt, .int m.scanDuration]

/-- Deserialize a directory record (the model of gob decoding in
`LoadDirMetadata`); fails on any malformed token sequence. -/
def decodeMeta (toks : List Tok) : Option IncrementalDirMetadata :=
  match toks with
  | .str path :: .time mtime :: .int size :: .int usage ::
      .int itemCount :: .chr flag :: .nat n :: rest =>
    match decodeFileList n rest with
    | some (files, [.time cachedAt, .int scanDuration]) =>
      some ⟨path, mtime, size, usage, itemCount, flag, files,
            cachedAt, scanDuration⟩
    | _ => none
  | _ => none

/-- The BadgerDB key-value store contents: an association list from keys
to encoded values. -/
abbrev Store : Type := List (String × List Tok)

/-- Key-value lookup (`txn.Get`). -/
def Store.get (st : Store) (key : String) : Option (List Tok) :=
  match st with
  | [] => none
  | (k, v) :: rest => if k = key then some v else Store.get rest key

/-- Key-value upsert (`txn.Set`). -/
def Store.set (st : Store) (key : String) (val : List Tok) : Store :=
  match st with
  | [] => [(key, val)]
  | (k, v) :: rest =>
    if k = key then (k, val) :: rest else (k, v) :: Store.set rest key val

/-- Key-value delete (`txn.Delete`). -/
def Store.del (st : Store) (key : String) : Store :=
  match st with
  | [] => []
  | (k, v) :: rest => if k = key then Store.del rest key
                      else (k, v) :: Store.del rest key

/-- `makeKey` from incremental_storage.go: the key schema is
`"incr:" + path`, the path stored verbatim. -/
def makeKey (path : String) : String := "incr:" ++ path

/-- Errors surfaced by the storage operations on an open store. -/
inductive StoreErr where
  | notPresent (path : String)
  | corrupted (path : String)
  | invalidEmptyPath (path : String)
deriving DecidableEq, Repr

/-- The body of `LoadDirMetadata` once the database handle is live:
look the key up (absence is the not-present miss), decode (failure is a
corrupted entry), then reject a decoded record whose path is empty. -/
def loadOpen (st : Store) (path : String) : Except StoreErr IncrementalDirMetadata :=
  match st.get (makeKey path) with
  | none => .error (.notPresent path)
  | some toks =>
    match decodeMeta toks with
    | none => .error (.corrupted path)
    | some meta =>
      if meta.path = "" then .error (.invalidEmptyPath path)
      else .ok meta

/-- The body of `StoreDirMetadata` once the database handle is live:
encode the record and set it under its path key. -/
def storeOpen (st : Store) (meta : IncrementalDirMetadata) : Store :=
  st.set (makeKey meta.path) (encodeMeta meta)

/-- The body of `DeleteDirMetadata` once the database handle is live. -/
def deleteOpen (st : Store) (path : String) : Store :=
  st.del (makeKey path)

/-- `IncrementalStorage` from incremental_storage.go: `db` is the Go
`*badger.DB` field, `none` when the database is not open (nil pointer). -/
structure IncrementalStorage where
  db : Option Store
  storagePath : String
  topDir : String
deriving DecidableEq, Repr

/-- `NewIncrementalStorage`: a fresh, not-yet-opened storage (db is nil). -/
def NewIncrementalStorage (storagePath topDir : String) : IncrementalStorage :=
  { db := none, storagePath := storagePath, topDir := topDir }

/-- `IsOpen` from incremental_storage.go. -/
def IncrementalStorage.IsOpen (s : IncrementalStorage) : Bool :=
  s.db.isSome

/-- The release closure returned by `Open` sets `s.db = nil` after closing
the database. -/
def IncrementalStorage.close (s : IncrementalStorage) : IncrementalStorage :=
  { s with db := none }

/-- Possible outcomes of calling a storage method, distinguishing a Go
runtime panic (nil pointer dereference) from an ordinary error return. -/
inductive Outcome (α : Type) where
  | ok (a : α)
  | err (e : StoreErr)
  | nilPanic
deriving DecidableEq, Repr

/-- `StoreDirMetadata` from incremental_storage.go.  The method calls
`s.db.Update` without a nil check, so when the database is closed
(`db = nil`) the call dereferences a nil pointer and panics.  Returns the
outcome and the storage after the call. -/
def IncrementalStorage.StoreDirMetadata (s : IncrementalStorage)
    (meta : IncrementalDirMetadata) : Outcome Unit × IncrementalStorage :=
  match s.db with
  | none => (.nilPanic, s)
  | some st => (.ok (), { s with db := some (storeOpen st meta) })

/-- `LoadDirMetadata` from incremental_storage.go; same nil-pointer hazard
as `StoreDirMetadata` when the database is closed. -/
def IncrementalStorage.LoadDirMetadata (s : IncrementalStorage)
    (path : String) : Outcome IncrementalDirMetadata :=
  match s.db with
  | none => .nilPanic
  | some st =>
    match loadOpen st path with
    | .error e => .err e
    | .ok meta => .ok meta

/-- `DeleteDirMetadata` from incremental_storage.go; same nil-pointer
hazard when the database is closed. -/
def IncrementalStorage.DeleteDirMetadata (s : IncrementalStorage)
    (path : String) : Outcome Unit × IncrementalStorage :=
  match s.db with
  | none => (.nilPanic, s)
  | some st => (.ok (), { s with db := some (deleteOpen st path) })

/-- The token-bucket limiter configuration created by
`rate.NewLimiter(rate.Limit(maxIOPS), maxIOPS)`: refill rate and burst
both equal maxIOPS.  Token timing is abstract; only cancellation decides
the result of a wait. -/
structure RateLimiter where
  limit : Int
  burst : Int
deriving DecidableEq, Repr

/-- `IOThrottle` from the throttle implementation: IOPS limit, fixed
delay (nanoseconds) and the optional token-bucket limiter. -/
structure IOThrottle where
  maxIOPS : Int
  ioDelay : Int
  limiter : Option RateLimiter
deriving DecidableEq, Repr

/-- `NewIOThrottle`: returns nil (modelled as `none`) when both
parameters are zero or negative; otherwise builds a throttle whose
limiter exists exactly when maxIOPS is positive. -/
def NewIOThrottle (maxIOPS : Int) (ioDelay : Int) : Option IOThrottle :=
  if maxIOPS ≤ 0 ∧ ioDelay ≤ 0 then none
  else some { maxIOPS := maxIOPS, ioDelay := ioDelay,
              limiter := if 0 < maxIOPS
                         then some { limit := maxIOPS, burst := maxIOPS }
                         else none }

/-- A Go context seen from the throttle's two suspension points:
whether the context is done before a token is obtained from the limiter,
and whether it is done before the fixed-delay timer fires. -/
structure GoContext where
  cancelledAtTokenWait : Bool
  cancelledAtDelay : Bool
deriving DecidableEq, Repr

/-- Cancellation is permanent and the token wait precedes the delay, so a
context cancelled at the token wait is still cancelled at the delay. -/
def GoContext.Monotone (c : GoContext) : Prop :=
  c.cancelledAtTokenWait = true → c.cancelledAtDelay = true

/-- The context was (or becomes) signalled during the call. -/
def GoContext.Signalled (c : GoContext) : Bool :=
  c.cancelledAtTokenWait || c.cancelledAtDelay

/-- Result of `Acquire`: nil, or the context's cancellation error. -/
inductive AcqResult where
  | ok
  | cancelled
deriving DecidableEq, Repr

/-- The fixed-delay phase of `Acquire`: a timer raced against the context
in a select; skipped entirely when no delay is configured. -/
def acquireDelay (t : IOThrottle) (ctx : GoContext) : AcqResult :=
  if 0 < t.ioDelay then
    (if ctx.cancelledAtDelay then .cancelled else .ok)
  else .ok

/-- `Acquire` on a possibly-nil throttle (Go methods on a nil receiver):
nil returns immediately; otherwise wait on the limiter (if any), then run
the fixed delay, each wait failing only by context cancellation. -/
def acquire (topt : Option IOThrottle) (ctx : GoContext) : AcqResult :=
  match topt with
  | none => .ok
  | some t =>
    match t.limiter with
    | some _ =>
      if ctx.cancelledAtTokenWait then .cancelled else acquireDelay t ctx
    | none => acquireDelay t ctx

/-- `IsEnabled` on a possibly-nil throttle: false for nil, otherwise true
when either throttling mode is configured. -/
def isEnabled (topt : Option IOThrottle) : Bool :=
  match topt with
  | none => false
  | some t => (0 < t.maxIOPS) || (0 < t.ioDelay)

/-- `DefaultDirBlockSize` from incremental.go: fallback directory size. -/
def DefaultDirBlockSize : Int := 4096

/-- Model of `filepath.Join` on cleaned paths (as the walker uses it). -/
def joinPath (dir name : String) : String := dir ++ "/" ++ name

/-- Model of `filepath.Base` on cleaned paths: the last component. -/
def filepathBase (p : String) : String :=
  match (p.splitOn "/").getLast? with
  | some s => s
  | none => p

/-- Model of `filepath.Dir` on cleaned paths: all but the last component. -/
def filepathDir (p : String) : String :=
  String.intercalate "/" (p.splitOn "/").dropLast

/-- In-memory tree node: the `File` / `Dir` structs of the analyzer
(`Dir` embeds `File`).  Parent back-references are weak lookup-only
pointers in the source and are not part of the ownership tree, so they
are omitted here. -/
inductive FsItem where
  | file (name : String) (size usage : Int) (mtime : GoTime) (flag : Char)
      (mli : Nat)
  | dir (name : String) (size usage : Int) (mtime : GoTime) (flag : Char)
      (basePath : String) (itemCount : Int) (files : List FsItem)

def FsItem.getName : FsItem → String
  | .file name _ _ _ _ _ => name
  | .dir name _ _ _ _ _ _ _ => name

def FsItem.getSize : FsItem → Int
  | .file _ size _ _ _ _ => size
  | .dir _ size _ _ _ _ _ _ => size

def FsItem.getUsage : FsItem → Int
  | .file _ _ usage _ _ _ => usage
  | .dir _ _ usage _ _ _ _ _ => usage

def FsItem.getMtime : FsItem → GoTime
  | .file _ _ _ mtime _ _ => mtime
  | .dir _ _ _ mtime _ _ _ _ => mtime

def FsItem.getFlag : FsItem → Char
  | .file _ _ _ _ flag _ => flag
  | .dir _ _ _ _ flag _ _ _ => flag

/-- `GetItemCount`: 1 for a file, the stored count for a directory. -/
def FsItem.itemCountOf : FsItem → Int
  | .file _ _ _ _ _ _ => 1
  | .dir _ _ _ _ _ _ itemCount _ => itemCount

/-- `IsDir` of the fs.Item interface. -/
def FsItem.isDirItem : FsItem → Bool
  | .file _ _ _ _ _ _ => false
  | .dir _ _ _ _ _ _ _ _ => true

/-- The multi-link inode id; the source reads it by a type assertion that
only succeeds for `File`, so a directory child yields 0. -/
def FsItem.mliOf : FsItem → Nat
  | .file _ _ _ _ _ mli => mli
  | .dir _ _ _ _ _ _ _ _ => 0

/-- Direct children of a directory node (empty for a file). -/
def FsItem.filesOf : FsItem → List FsItem
  | .file _ _ _ _ _ _ => []
  | .dir _ _ _ _ _ _ _ files => files

/-- `extractFileMetadata` from incremental.go: direct-child metadata rows
built through the fs.Item getters. -/
def extractFileMetadata (files : List FsItem) : List FileMetadata :=
  files.map fun it =>
    { name := it.getName, isDir := it.isDirItem, size := it.getSize,
      usage := it.getUsage, mtime := it.getMtime, flag := it.getFlag,
      mli := it.mliOf }

/-- Result of `os.Stat` on a directory: its mtime and apparent size. -/
structure StatInfo where
  mtime : GoTime
  size : Int
deriving DecidableEq, Repr

/-- The final attributes of a file entry as the scan records them
(`f.Info()` combined with the platform-specific attributes and, when
enabled, symlink target resolution). -/
structure FileEntryInfo where
  size : Int
  usage : Int
  mtime : GoTime
  flag : Char
  mli : Nat
deriving DecidableEq, Repr

/-- One entry of a directory listing.  A `fileE` with `none` info models
an entry whose `f.Info()` call failed (the source skips it). -/
inductive DirEntry where
  | dirE (name : String)
  | fileE (name : String) (info : Option FileEntryInfo)
deriving DecidableEq, Repr

/-- Result of `os.ReadDir`: the entries obtained and whether the listing
returned an error. -/
structure ReadDirRes where
  entries : List DirEntry
  failed : Bool
deriving DecidableEq, Repr

/-- The filesystem / clock environment the walker runs against. -/
structure Env where
  stat : String → Option StatInfo
  readDir : String → ReadDirRes
  now : GoTime
  endTime : GoTime
  scanDurationOf : String → Int
  openFails : Bool
  initialStore : Store

/-- Analyzer configuration (`IncrementalOptions` plus the caller-supplied
ignore predicate; the throttle fields are exercised separately). -/
structure Cfg where
  forceFullScan : Bool
  cacheMaxAge : Int
  ignoreDir : String → String → Bool

/-- Observable effects of a walker step, recorded as a trace. -/
inductive Event where
  | statFS (p : String)
  | readDirFS (p : String)
  | storeLoad (p : String)
  | storeWrite (p : String)
  | progress (p : String)
  | procDir (p : String)
deriving DecidableEq, Repr

/-- Walker state: the open store contents, the statistics accumulator and
the event trace. -/
structure St where
  store : Store
  stats : CacheStats
  events : List Event
deriving DecidableEq, Repr

def logEvent (e : Event) (st : St) : St :=
  { st with events := st.events ++ [e] }

def modStats (f : CacheStats → CacheStats) (st : St) : St :=
  { st with stats := f st.stats }

/-- A `StoreDirMetadata` call from inside the walker (store is open). -/
def storeWriteOp (meta : IncrementalDirMetadata) (st : St) : St :=
  let st := logEvent (.storeWrite meta.path) st
  { st with store := storeOpen st.store meta }

/-- `getDirFlag`: '!' when the listing errored, 'e' when it was empty. -/
def getDirFlag (failed : Bool) (numItems : Nat) : Char :=
  if failed then '!' else if numItems = 0 then 'e' else ' '

/-- `createErrorDir` from incremental.go: a progress message followed by
an error node with flag '!', no children and item count 0. -/
def createErrorDir (path : String) (st : St) : FsItem × St :=
  let st := logEvent (.progress path) st
  (.dir (filepathBase path) 0 0 ⟨0, 0⟩ '!' (filepathDir path) 0 [], st)

/-- Value returned when the recursion fuel runs out (an artifact of the
fuelled model only; all theorems supply sufficient fuel). -/
def fuelOutDir (path : String) : FsItem :=
  .dir (filepathBase path) 0 0 ⟨0, 0⟩ '!' (filepathDir path) 0 []

/-- Per-child accumulator of `performFullScan`'s entry loop. -/
structure ScanAcc where
  files : List FsItem
  size : Int
  usage : Int
  itemCount : Int

mutual

/-- `processDir` from incremental.go: the per-directory decision state
machine (stat, forced, miss, expired, changed, hit). -/
def processDir (fuel : Nat) (cfg : Cfg) (env : Env) (path : String)
    (st : St) : FsItem × St :=
  match fuel with
  | 0 => (fuelOutDir path, st)
  | fuel + 1 =>
    let st := logEvent (.procDir path) st
    let st := logEvent (.statFS path) st
    match env.stat path with
    | none => createErrorDir path st
    | some info =>
      let currentMtime := info.mtime
      if cfg.forceFullScan then
        let st := modStats CacheStats.incDirsRescanned st
        scanAndCache fuel cfg env path currentMtime st
      else
        let st1 := logEvent (.storeLoad path) st
        match loadOpen st1.store path with
        | .error _ =>
          let st2 := modStats CacheStats.incTotalDirs
            (modStats CacheStats.incCacheMisses st1)
          scanAndCache fuel cfg env path currentMtime st2
        | .ok cached =>
          if 0 < cfg.cacheMaxAge ∧
              cfg.cacheMaxAge < env.now.toNanos - cached.cachedAt.toNanos then
            let st2 := modStats CacheStats.incTotalDirs
              (modStats CacheStats.incDirsRescanned
                (modStats CacheStats.incCacheExpired st1))
            scanAndCache fuel cfg env path currentMtime st2
          else if ¬ cached.mtime.Equal currentMtime then
            let st2 := modStats CacheStats.incTotalDirs
              (modStats CacheStats.incDirsRescanned st1)
            scanAndCache fuel cfg env path currentMtime st2
          else
            let st2 := modStats (fun s => s.addBytesFromCache cached.size)
              (modStats CacheStats.incTotalDirs
                (modStats CacheStats.incCacheHits st1))
            rebuildFromCache fuel cfg env cached st2
termination_by (fuel, 0, 0)

/-- `scanAndCache` from incremental.go: full scan, then build and store
the metadata record and account the scanned bytes. -/
def scanAndCache (fuel : Nat) (cfg : Cfg) (env : Env) (path : String)
    (currentMtime : GoTime) (st : St) : FsItem × St :=
  let (dir, st) := performFullScan fuel cfg env path st
  let meta : IncrementalDirMetadata :=
    { path := path, mtime := currentMtime, size := dir.getSize,
      usage := dir.getUsage, itemCount := dir.itemCountOf,
      flag := dir.getFlag, files := extractFileMetadata dir.filesOf,
      cachedAt := env.now, scanDuration := env.scanDurationOf path }
  let st := storeWriteOp meta st
  let st := modStats (fun s => s.addBytesScanned dir.getSize) st
  (dir, st)
termination_by (fuel, 6, 0)

/-- `performFullScan` from incremental.go: list the directory, stat it
for its own size (with the 4096 fallback), process each entry, then set
the totals and emit progress. -/
def performFullScan (fuel : Nat) (cfg : Cfg) (env : Env) (path : String)
    (st : St) : FsItem × St :=
  let st := logEvent (.readDirFS path) st
  let rd := env.readDir path
  let st := logEvent (.statFS path) st
  let selfSize : Int :=
    match env.stat path with
    | some i => i.size
    | none => DefaultDirBlockSize
  let dirMtime : GoTime :=
    match env.stat path with
    | some i => i.mtime
    | none => ⟨0, 0⟩
  let (acc, st) := scanChildren fuel cfg env path rd.entries st
  let dir : FsItem := .dir (filepathBase path) (selfSize + acc.size)
    (selfSize + acc.usage) dirMtime (getDirFlag rd.failed rd.entries.length)
    (filepathDir path) (acc.itemCount + 1) acc.files
  let st := logEvent (.progress path) st
  (dir, st)
termination_by (fuel, 5, 0)

/-- The entry loop of `performFullScan`: subdirectories recurse through
the state machine unless ignored; files become nodes from their entry
info, entries whose info call failed are skipped. -/
def scanChildren (fuel : Nat) (cfg : Cfg) (env : Env) (path : String)
    (entries : List DirEntry) (st : St) : ScanAcc × St :=
  match entries with
  | [] => ({ files := [], size := 0, usage := 0, itemCount := 0 }, st)
  | e :: rest =>
    match e with
    | .dirE name =>
      let entryPath := joinPath path name
      if cfg.ignoreDir name entryPath then
        scanChildren fuel cfg env path rest st
      else
        let (subdir, st) := processDir fuel cfg env entryPath st
        let (acc, st) := scanChildren fuel cfg env path rest st
        ({ files := subdir :: acc.files,
           size := subdir.getSize + acc.size,
           usage := subdir.getUsage + acc.usage,
           itemCount := subdir.itemCountOf + acc.itemCount }, st)
    | .fileE name info? =>
      match info? with
      | none => scanChildren fuel cfg env path rest st
      | some fi =>
        let f : FsItem := .file name fi.size fi.usage fi.mtime fi.flag fi.mli
        let (acc, st) := scanChildren fuel cfg env path rest st
        ({ files := f :: acc.files,
           size := fi.size + acc.size,
           usage := fi.usage + acc.usage,
           itemCount := 1 + acc.itemCount }, st)
termination_by (fuel, 4, entries.length)

/-- `rebuildFromCache` from incremental.go: mirror the record into a node
and reconstruct the children from the stored child metadata. -/
def rebuildFromCache (fuel : Nat) (cfg : Cfg) (env : Env)
    (cached : IncrementalDirMetadata) (st : St) : FsItem × St :=
  match fuel with
  | 0 => (fuelOutDir cached.path, st)
  | fuel + 1 =>
    let (children, st) := rebuildChildren fuel cfg env cached.path cached.files st
    let dir : FsItem := .dir (filepathBase cached.path) cached.size
      cached.usage cached.mtime cached.flag (filepathDir cached.path)
      cached.itemCount children
    let st := logEvent (.progress cached.path) st
    (dir, st)
termination_by (fuel, 1, 0)

/-- The child loop of `rebuildFromCache`, in stored order. -/
def rebuildChildren (fuel : Nat) (cfg : Cfg) (env : Env)
    (parentPath : String) (fms : List FileMetadata) (st : St) :
    List FsItem × St :=
  match fms with
  | [] => ([], st)
  | fm :: rest =>
    let (child, st) := rebuildChild fuel cfg env parentPath fm st
    let (children, st) := rebuildChildren fuel cfg env parentPath rest st
    (child :: children, st)
termination_by (fuel, 3, fms.length)

/-- One child of `rebuildFromCache`: a file child is instantiated
directly from the stored metadata; a directory child is loaded directly
from the cache and rebuilt, falling back to the full state machine only
when that load fails. -/
def rebuildChild (fuel : Nat) (cfg : Cfg) (env : Env) (parentPath : String)
    (fm : FileMetadata) (st : St) : FsItem × St :=
  if fm.isDir then
    let childPath := joinPath parentPath fm.name
    let st := logEvent (.storeLoad childPath) st
    match loadOpen st.store childPath with
    | .error _ => processDir fuel cfg env childPath st
    | .ok childCached => rebuildFromCache fuel cfg env childCached st
  else
    (.file fm.name fm.size fm.usage fm.mtime fm.flag fm.mli, st)
termination_by (fuel, 2, 0)

end

/-- `AnalyzeDir` from incremental.go: open the store (a failure yields a
flagged error node with the diagnostic), otherwise run the walker from
the root over a fresh statistics accumulator. -/
def AnalyzeDir (cfg : Cfg) (env : Env) (fuel : Nat) (path : String) :
    FsItem × St :=
  let st0 : St :=
    { store := env.initialStore,
      stats := { NewCacheStats with scanStartTime := env.now },
      events := [] }
  if env.openFails then
    (.dir (filepathBase path) 0 0 ⟨0, 0⟩ '!' (filepathDir path) 0 [], st0)
  else
    let (dir, st) := processDir fuel cfg env path st0
    let st := modStats (fun s =>
      { s with scanEndTime := env.endTime,
               totalScanTime := env.endTime.toNanos - env.now.toNanos }) st
    (dir, st)

/-- A record whose path is empty (the shape `LoadDirMetadata` rejects as
an invalid cache entry). -/
def emptyPathRecord : IncrementalDirMetadata :=
  { path := "", mtime := ⟨0, 0⟩, size := 0, usage := 0, itemCount := 0,
    flag := ' ', files := [], cachedAt := ⟨0, 0⟩, scanDuration := 0 }

/-- A small concrete record with a non-empty path, one file child and one
directory child, used by witnesses. -/
def sampleRecord : IncrementalDirMetadata :=
  { path := "/a", mtime := ⟨10, 5⟩, size := 7, usage := 8, itemCount := 3,
    flag := ' ',
    files := [{ name := "f", isDir := false, size := 3, usage := 4,
                mtime := ⟨1, 2⟩, flag := ' ', mli := 0 },
              { name := "d", isDir := true, size := 4, usage := 4,
                mtime := ⟨3, 4⟩, flag := ' ', mli := 0 }],
    cachedAt := ⟨9, 0⟩, scanDuration := 11 }

/-- A concrete environment whose filesystem has the single directory
"/a" (mtime matching `sampleRecord`), used by witnesses. -/
def sampleEnv : Env :=
  { stat := fun p => if p = "/a" then some ⟨⟨10, 5⟩, 2⟩ else none,
    readDir := fun _ => { entries := [], failed := false },
    now := ⟨100, 0⟩, endTime := ⟨101, 0⟩,
    scanDurationOf := fun _ => 1,
    openFails := false,
    initialStore := storeOpen [] sampleRecord }

/-- A concrete configuration: no forced scan, no expiry, nothing
ignored; used by witnesses. -/
def sampleCfg : Cfg :=
  { forceFullScan := false, cacheMaxAge := 0, ignoreDir := fun _ _ => false }

/-- A concrete walker state whose store holds `sampleRecord`. -/
def sampleSt : St :=
  { store := storeOpen [] sampleRecord, stats := NewCacheStats, events := [] }

/-- A cached record for "/a" whose mtime matches `sampleEnv` and whose
only child is a file, used by the cache-hit witness. -/
def hitRecord : IncrementalDirMetadata :=
  { path := "/a", mtime := ⟨10, 5⟩, size := 7, usage := 8, itemCount := 2,
    flag := ' ',
    files := [{ name := "f", isDir := false, size := 3, usage := 4,
                mtime := ⟨1, 2⟩, flag := ' ', mli := 0 }],
    cachedAt := ⟨9, 0⟩, scanDuration := 11 }

/-- A walker state whose store holds `hitRecord`. -/
def hitSt : St :=
  { store := storeOpen [] hitRecord, stats := NewCacheStats, events := [] }

/-- The item-count convention's child contribution sum: a directory child
contributes its item count, a file child contributes 1. -/
def itemSum : List FsItem → Int
  | [] => 0
  | it :: rest => it.itemCountOf + itemSum rest

/-- How many children the scan loop attaches for a given entry list: one
per non-ignored subdirectory and one per file entry whose info call
succeeded (stat failures of subdirectories do not reduce this count). -/
def countAttached (cfg : Cfg) (path : String) : List DirEntry → Nat
  | [] => 0
  | .dirE name :: rest =>
    (if cfg.ignoreDir name (joinPath path name) then 0 else 1) +
      countAttached cfg path rest
  | .fileE _ none :: rest => countAttached cfg path rest
  | .fileE _ (some _) :: rest => 1 + countAttached cfg path rest

/-- `sampleEnv` with a store that cannot be opened, for the facade's
open-failure path. -/
def failEnv : Env :=
  { stat := sampleEnv.stat, readDir := sampleEnv.readDir,
    now := sampleEnv.now, endTime := sampleEnv.endTime,
    scanDurationOf := sampleEnv.scanDurationOf,
    openFails := true, initialStore := [] }

/-- A cached record for the subdirectory "/a/d" of `sampleRecord`. -/
def childRecord : IncrementalDirMetadata :=
  { path := "/a/d", mtime := ⟨3, 4⟩, size := 4, usage := 4, itemCount := 1,
    flag := 'e', files := [], cachedAt := ⟨9, 0⟩, scanDuration := 2 }

/-- A walker state whose store holds `sampleRecord` and `childRecord`
(a warm cache for the subtree at "/a"). -/
def nestedSt : St :=
  { store := storeOpen (storeOpen [] childRecord) sampleRecord,
    stats := NewCacheStats, events := [] }

/-- Whether an event is a cache load (`LoadDirMetadata` call). -/
def isStoreLoadEv : Event → Bool
  | .storeLoad _ => true
  | _ => false

/-- Number of cache-load events in a trace. -/
def countLoads (evs : List Event) : Nat :=
  evs.countP (fun e => isStoreLoadEv e)

/-- The forced-scan invariant between an input and an output walker
state: the cache-hit counter is unchanged and no cache load was
performed. -/
def forcePreserved (st st2 : St) : Prop :=
  st2.stats.cacheHits = st.stats.cacheHits ∧
  countLoads st2.events = countLoads st.events

/-- `sampleCfg` with force_full_scan set. -/
def forceCfg : Cfg :=
  { forceFullScan := true, cacheMaxAge := 0, ignoreDir := fun _ _ => false }

theorem decodeFileList_append (fs : List FileMetadata) (rest : List Tok) :
    decodeFileList fs.length ((fs.map encodeFileMetadata).flatten ++ rest) =
      some (fs, rest) := by
  induction fs with
  | nil => simp [decodeFileList]
  | cons f fs ih =>
    simp only [List.map_cons, List.flatten, List.append_assoc, List.length_cons]
    simp [decodeFileList, encodeFileMetadata, decodeFileMetadata, ih]

/-- The serialization round-trips: decoding an encoded record gives the
record back (the property the spec requires of the concrete format). -/
theorem decodeMeta_encodeMeta (m : IncrementalDirMetadata) :
    decodeMeta (encodeMeta m) = some m := by
  simp [encodeMeta, decodeMeta, decodeFileList_append]

theorem store_get_set_self (st : Store) (k : String) (v : List Tok) :
    (st.set k v).get k = some v := by
  induction st with
  | nil => simp [Store.set, Store.get]
  | cons hd tl ih =>
    obtain ⟨k1, v1⟩ := hd
    by_cases h : k1 = k
    · simp [Store.set, Store.get, h]
    · simp [Store.set, Store.get, h, ih]

/-- C1: the closed-store discipline is not implemented.  After the
release function returned by `Open` has run — and equally before `Open`
— every storage operation (store, load, delete) dereferences the nil
database handle and panics instead of returning a NotOpen error. -/
theorem closed_store_ops_nil_panic (s : IncrementalStorage)
    (h : s.db = none) (meta : IncrementalDirMetadata) (p q : String) :
    (s.StoreDirMetadata meta).fst = Outcome.nilPanic ∧
    s.LoadDirMetadata p = Outcome.nilPanic ∧
    (s.DeleteDirMetadata q).fst = Outcome.nilPanic ∧
    (∀ s2 : IncrementalStorage, s2.close.db = none) ∧
    (∀ sp td, (NewIncrementalStorage sp td).db = none) := by
  refine ⟨?_, ?_, ?_, fun s2 => rfl, fun sp td => rfl⟩ <;>
    simp [IncrementalStorage.StoreDirMetadata,
          IncrementalStorage.LoadDirMetadata,
          IncrementalStorage.DeleteDirMetadata, h]

theorem closed_store_ops_nil_panic_witness :
    ((NewIncrementalStorage "/cache" "/root").close.StoreDirMetadata
        sampleRecord).fst = Outcome.nilPanic ∧
    (NewIncrementalStorage "/cache" "/root").close.LoadDirMetadata "/a" =
      Outcome.nilPanic ∧
    ((NewIncrementalStorage "/cache" "/root").close.DeleteDirMetadata
        "/a").fst = Outcome.nilPanic := by
  have h := closed_store_ops_nil_panic
    (NewIncrementalStorage "/cache" "/root").close rfl sampleRecord "/a" "/a"
  exact ⟨h.1, h.2.1, h.2.2.1⟩

/-- C5 counterexample: with one hit and one miss, `HitRate` returns 50 —
the percentage — not the claimed ratio hits/(hits+misses) = 1/2; likewise
`IOReduction` returns 25 on one cached byte out of four, not 1/4. -/
theorem hitRate_is_not_the_ratio :
    ({ NewCacheStats with cacheHits := 1, cacheMisses := 1 }
        : CacheStats).HitRate ≠ (1 : ℚ) / (1 + 1) ∧
    ({ NewCacheStats with bytesFromCache := 1, bytesScanned := 3 }
        : CacheStats).IOReduction ≠ (1 : ℚ) / (1 + 3) := by
  constructor <;> norm_num [CacheStats.HitRate, CacheStats.IOReduction,
    NewCacheStats]

/-- C5 amended: `HitRate` equals hits/(hits+misses)·100 and `IOReduction`
equals bytesFromCache/(bytesFromCache+bytesScanned)·100 — percentages —
and both return 0 when their denominators are 0. -/
theorem hitRate_ioReduction_formula (s : CacheStats) :
    (s.cacheHits + s.cacheMisses = 0 → s.HitRate = 0) ∧
    (s.cacheHits + s.cacheMisses ≠ 0 →
      s.HitRate = (s.cacheHits : ℚ) /
        ((s.cacheHits : ℚ) + (s.cacheMisses : ℚ)) * 100) ∧
    (s.bytesFromCache + s.bytesScanned = 0 → s.IOReduction = 0) ∧
    (s.bytesFromCache + s.bytesScanned ≠ 0 →
      s.IOReduction = (s.bytesFromCache : ℚ) /
        ((s.bytesFromCache : ℚ) + (s.bytesScanned : ℚ)) * 100) := by
  refine ⟨fun h => ?_, fun h => ?_, fun h => ?_, fun h => ?_⟩
  · simp [CacheStats.HitRate, h]
  · simp only [CacheStats.HitRate]
    rw [if_neg h]
    push_cast
    ring
  · simp [CacheStats.IOReduction, h]
  · simp only [CacheStats.IOReduction]
    rw [if_neg h]
    push_cast
    ring

theorem hitRate_ioReduction_formula_witness :
    ({ NewCacheStats with cacheHits := 3, cacheMisses := 1 }
        : CacheStats).HitRate = 75 ∧
    (NewCacheStats.IOReduction = 0) := by
  constructor
  · have h := (hitRate_ioReduction_formula
      { NewCacheStats with cacheHits := 3, cacheMisses := 1 }).2.1
      (by norm_num [NewCacheStats])
    rw [h]; norm_num [NewCacheStats]
  · exact (hitRate_ioReduction_formula NewCacheStats).2.2.1
      (by norm_num [NewCacheStats])

/-- C7: with both parameters zero the throttle factory returns the nil
sentinel, on which `Acquire` returns Ok for every context and
`IsEnabled` is false; with either parameter positive the factory returns
an enabled throttle. -/
theorem throttle_factory_and_sentinel :
    NewIOThrottle 0 0 = none ∧
    (∀ ctx, acquire none ctx = AcqResult.ok) ∧
    isEnabled none = false ∧
    (∀ a b : Int, 0 < a ∨ 0 < b →
      (NewIOThrottle a b).isSome = true ∧
      isEnabled (NewIOThrottle a b) = true) := by
  refine ⟨rfl, fun ctx => rfl, rfl, fun a b h => ?_⟩
  have hne : ¬ (a ≤ 0 ∧ b ≤ 0) := by omega
  constructor
  · simp [NewIOThrottle, hne]
  · simp only [NewIOThrottle, if_neg hne, isEnabled]
    rcases h with h | h
    · simp [decide_eq_true h]
    · simp [decide_eq_true h]

theorem throttle_factory_and_sentinel_witness :
    ((0 : Int) < 5 ∨ (0 : Int) < 0) ∧
    (NewIOThrottle 5 0).isSome = true ∧
    isEnabled (NewIOThrottle 5 0) = true :=
  ⟨Or.inl (by norm_num),
   throttle_factory_and_sentinel.2.2.2 5 0 (Or.inl (by norm_num))⟩

/-- C8: throttle acquisition fails only by cancellation — a Cancelled
result implies the context was signalled at one of the two waits, every
call with an unsignalled context returns Ok, and on a throttle the
factory actually built, a context already signalled on entry makes
`Acquire` return Cancelled (at the token wait, or at the fixed delay for
a delay-only throttle). -/
theorem acquire_cancellation_only (a b : Int) (ctx : GoContext)
    (hmono : ctx.Monotone) :
    (acquire (NewIOThrottle a b) ctx = AcqResult.cancelled →
      ctx.Signalled = true) ∧
    (ctx.Signalled = false →
      acquire (NewIOThrottle a b) ctx = AcqResult.ok) ∧
    (∀ t, NewIOThrottle a b = some t → ctx.cancelledAtTokenWait = true →
      acquire (some t) ctx = AcqResult.cancelled) := by
  by_cases hz : a ≤ 0 ∧ b ≤ 0
  · refine ⟨?_, ?_, ?_⟩ <;> simp [NewIOThrottle, hz, acquire]
  · have hfac : NewIOThrottle a b = some
        { maxIOPS := a, ioDelay := b,
          limiter := if 0 < a then some { limit := a, burst := a }
                     else none } := by
      simp [NewIOThrottle, hz]
    refine ⟨?_, ?_, ?_⟩
    · intro hres
      by_contra hsig
      rw [Bool.not_eq_true] at hsig
      have h1 : ctx.cancelledAtTokenWait = false := by
        have := congrArg (fun c => c) hsig
        simp [GoContext.Signalled, Bool.or_eq_false_iff] at hsig
        exact hsig.1
      have h2 : ctx.cancelledAtDelay = false := by
        simp [GoContext.Signalled, Bool.or_eq_false_iff] at hsig
        exact hsig.2
      rw [hfac] at hres
      by_cases ha : 0 < a <;>
        simp [acquire, ha, h1, h2, acquireDelay] at hres
    · intro hsig
      simp [GoContext.Signalled, Bool.or_eq_false_iff] at hsig
      rw [hfac]
      by_cases ha : 0 < a <;>
        simp [acquire, ha, hsig.1, hsig.2, acquireDelay]
    · intro t ht hw
      rw [hfac] at ht
      injection ht with ht
      subst ht
      by_cases ha : 0 < a
      · simp [acquire, ha, hw]
      · have hb : 0 < b := by omega
        simp [acquire, ha, acquireDelay, hb, hmono hw]

theorem acquire_cancellation_only_witness :
    acquire (NewIOThrottle 0 5) ⟨true, true⟩ = AcqResult.cancelled ∧
    acquire (NewIOThrottle 5 0) ⟨false, false⟩ = AcqResult.ok := by
  constructor
  · exact (acquire_cancellation_only 0 5 ⟨true, true⟩ (fun _ => rfl)).2.2
      { maxIOPS := 0, ioDelay := 5, limiter := none } (by norm_num [NewIOThrottle]) rfl
  · exact (acquire_cancellation_only 5 0 ⟨false, false⟩
      (fun h => by simp at h)).2.1 rfl

/-- C3 counterexample: the round-trip does not hold for every record —
storing the record whose path is empty and loading that same path hits
the empty-path validation in `LoadDirMetadata`, which returns an invalid
entry error instead of the record. -/
theorem roundtrip_fails_on_empty_path :
    loadOpen (storeOpen [] emptyPathRecord) "" =
      Except.error (StoreErr.invalidEmptyPath "") ∧
    loadOpen (storeOpen [] emptyPathRecord) "" ≠
      Except.ok emptyPathRecord := by
  constructor
  · rfl
  · intro h
    simp [loadOpen, storeOpen, emptyPathRecord, makeKey, Store.set,
      Store.get, decodeMeta_encodeMeta] at h

/-- C3 amended: for every record whose path is non-empty — in particular
every record the walker produces, whose path field is the scanned
directory's path — storing it and loading the same path returns a
structurally equal record, and the loaded mtime equals the stored mtime
under the nanosecond-preserving time equality. -/
theorem store_load_roundtrip (st : Store) (r : IncrementalDirMetadata)
    (h : r.path ≠ "") :
    loadOpen (storeOpen st r) r.path = Except.ok r ∧
    ∀ r2, loadOpen (storeOpen st r) r.path = Except.ok r2 →
      r2.mtime.Equal r.mtime = true := by
  have hload : loadOpen (storeOpen st r) r.path = Except.ok r := by
    unfold loadOpen storeOpen
    rw [store_get_set_self]
    simp [decodeMeta_encodeMeta, h]
  refine ⟨hload, fun r2 h2 => ?_⟩
  rw [hload] at h2
  injection h2 with h2
  subst h2
  simp [GoTime.Equal]

theorem store_load_roundtrip_witness :
    sampleRecord.path ≠ "" ∧
    loadOpen (storeOpen [] sampleRecord) sampleRecord.path =
      Except.ok sampleRecord :=
  ⟨by decide, (store_load_roundtrip [] sampleRecord (by decide)).1⟩

/-- C2: for a directory whose stat succeeds, with force_full_scan unset,
the walker takes the cache-hit path — incrementing cache_hits and
total_dirs, adding the record's size to bytes_from_cache and running
REBUILD_FROM_CACHE — exactly when the load succeeds, the record is not
expired under cache_max_age, and the record's mtime equals the current
filesystem mtime by the nanosecond-preserving whole-value equality; when
the record loaded (and is not expired) but the mtimes differ, it instead
increments dirs_rescanned and total_dirs and runs SCAN_AND_CACHE; a
failed load runs SCAN_AND_CACHE as a miss, an expired record runs
SCAN_AND_CACHE as expired — so the hit path is taken if and only if the
three conditions hold. -/
theorem processDir_hit_iff (fuel : Nat) (cfg : Cfg) (env : Env)
    (p : String) (st : St) (info : StatInfo)
    (hstat : env.stat p = some info) (hforce : cfg.forceFullScan = false) :
    (∀ r, loadOpen st.store p = Except.ok r →
      ¬ (0 < cfg.cacheMaxAge ∧
          cfg.cacheMaxAge < env.now.toNanos - r.cachedAt.toNanos) →
      r.mtime.Equal info.mtime = true →
      processDir (fuel + 1) cfg env p st =
        rebuildFromCache fuel cfg env r
          (modStats (fun s => s.addBytesFromCache r.size)
            (modStats CacheStats.incTotalDirs
              (modStats CacheStats.incCacheHits
                (logEvent (.storeLoad p)
                  (logEvent (.statFS p) (logEvent (.procDir p) st))))))) ∧
    (∀ r, loadOpen st.store p = Except.ok r →
      ¬ (0 < cfg.cacheMaxAge ∧
          cfg.cacheMaxAge < env.now.toNanos - r.cachedAt.toNanos) →
      r.mtime.Equal info.mtime = false →
      processDir (fuel + 1) cfg env p st =
        scanAndCache fuel cfg env p info.mtime
          (modStats CacheStats.incTotalDirs
            (modStats CacheStats.incDirsRescanned
              (logEvent (.storeLoad p)
                (logEvent (.statFS p) (logEvent (.procDir p) st)))))) ∧
    (∀ e, loadOpen st.store p = Except.error e →
      processDir (fuel + 1) cfg env p st =
        scanAndCache fuel cfg env p info.mtime
          (modStats CacheStats.incTotalDirs
            (modStats CacheStats.incCacheMisses
              (logEvent (.storeLoad p)
                (logEvent (.statFS p) (logEvent (.procDir p) st)))))) ∧
    (∀ r, loadOpen st.store p = Except.ok r →
      (0 < cfg.cacheMaxAge ∧
        cfg.cacheMaxAge < env.now.toNanos - r.cachedAt.toNanos) →
      processDir (fuel + 1) cfg env p st =
        scanAndCache fuel cfg env p info.mtime
          (modStats CacheStats.incTotalDirs
            (modStats CacheStats.incDirsRescanned
              (modStats CacheStats.incCacheExpired
                (logEvent (.storeLoad p)
                  (logEvent (.statFS p) (logEvent (.procDir p) st))))))) := by
  refine ⟨fun r hload hexp heq => ?_, fun r hload hexp heq => ?_,
          fun e hload => ?_, fun r hload hexp => ?_⟩
  · rw [processDir.eq_def]
    simp [logEvent, modStats, hstat, hforce, hload, hexp, heq]
  · rw [processDir.eq_def]
    simp [logEvent, modStats, hstat, hforce, hload, hexp, heq]
  · rw [processDir.eq_def]
    simp [logEvent, modStats, hstat, hforce, hload]
  · rw [processDir.eq_def]
    simp [logEvent, modStats, hstat, hforce, hload, hexp]

theorem processDir_hit_iff_witness :
    (processDir 2 sampleCfg sampleEnv "/a" hitSt).snd.stats.cacheHits = 1 ∧
    (processDir 2 sampleCfg sampleEnv "/a" hitSt).snd.stats.totalDirs = 1 ∧
    (processDir 2 sampleCfg sampleEnv "/a" hitSt).snd.stats.bytesFromCache
      = 7 := by
  have h := (processDir_hit_iff 1 sampleCfg sampleEnv "/a" hitSt
      ⟨⟨10, 5⟩, 2⟩ rfl rfl).1 hitRecord rfl (by decide) rfl
  rw [h]
  rw [rebuildFromCache.eq_def]
  simp [rebuildChildren, rebuildChild, hitRecord, logEvent, modStats,
    NewCacheStats, hitSt, CacheStats.incCacheHits, CacheStats.incTotalDirs,
    CacheStats.addBytesFromCache]

theorem scanChildren_files_length (fuel : Nat) (cfg : Cfg) (env : Env)
    (path : String) (entries : List DirEntry) (st : St) :
    (scanChildren fuel cfg env path entries st).fst.files.length =
      countAttached cfg path entries := by
  induction entries generalizing st with
  | nil => rw [scanChildren.eq_def]; simp [countAttached]
  | cons e rest ih =>
    rw [scanChildren.eq_def]
    match e with
    | .dirE name =>
      by_cases hig : cfg.ignoreDir name (joinPath path name)
      · simp [hig, countAttached, ih]
      · simp only [countAttached, hig, if_false, Bool.false_eq_true, reduceIte]
        obtain ⟨sub, st2⟩ := processDir fuel cfg env (joinPath path name) st
        simp only [ite_false, Bool.false_eq_true, reduceIte]
        rcases h : scanChildren fuel cfg env path rest st2 with ⟨acc, st3⟩
        have hl := ih st2
        rw [h] at hl
        simp [hl]
        omega
    | .fileE name none => simp [countAttached, ih]
    | .fileE name (some fi) =>
      simp only [countAttached]
      rcases h : scanChildren fuel cfg env path rest st with ⟨acc, st3⟩
      have hl := ih st
      rw [h] at hl
      simp [hl]
      omega

theorem scanChildren_itemCount_sum (fuel : Nat) (cfg : Cfg) (env : Env)
    (path : String) (entries : List DirEntry) (st : St) :
    (scanChildren fuel cfg env path entries st).fst.itemCount =
      itemSum (scanChildren fuel cfg env path entries st).fst.files := by
  induction entries generalizing st with
  | nil => rw [scanChildren.eq_def]; simp [itemSum]
  | cons e rest ih =>
    rw [scanChildren.eq_def]
    match e with
    | .dirE name =>
      by_cases hig : cfg.ignoreDir name (joinPath path name)
      · simp [hig, ih]
      · simp only [hig, if_false, Bool.false_eq_true, reduceIte]
        obtain ⟨sub, st2⟩ := processDir fuel cfg env (joinPath path name) st
        have hl := ih st2
        rcases h : scanChildren fuel cfg env path rest st2 with ⟨acc, st3⟩
        rw [h] at hl
        simp [itemSum, h]
        exact hl
    | .fileE name none => simp [ih]
    | .fileE name (some fi) =>
      have hl := ih st
      rcases h : scanChildren fuel cfg env path rest st with ⟨acc, st3⟩
      rw [h] at hl
      simp [itemSum, h, FsItem.itemCountOf]
      exact hl

/-- C9: when stat of a directory fails, the walker returns an error
DirNode with flag '!', no children and item count 0, changes no
statistics counter and no store entry, records a progress event, and
sibling processing continues: the scan loop still attaches one child per
non-ignored subdirectory entry and per readable file entry of any entry
list, irrespective of such failures. -/
theorem processDir_stat_error (fuel : Nat) (cfg : Cfg) (env : Env)
    (p : String) (st : St) (hstat : env.stat p = none) :
    processDir (fuel + 1) cfg env p st =
      (.dir (filepathBase p) 0 0 ⟨0, 0⟩ '!' (filepathDir p) 0 [],
        logEvent (.progress p)
          (logEvent (.statFS p) (logEvent (.procDir p) st))) ∧
    (processDir (fuel + 1) cfg env p st).snd.stats = st.stats ∧
    (processDir (fuel + 1) cfg env p st).snd.store = st.store ∧
    (∀ entries st2,
      (scanChildren fuel cfg env p entries st2).fst.files.length =
        countAttached cfg p entries) := by
  have h1 : processDir (fuel + 1) cfg env p st =
      (.dir (filepathBase p) 0 0 ⟨0, 0⟩ '!' (filepathDir p) 0 [],
        logEvent (.progress p)
          (logEvent (.statFS p) (logEvent (.procDir p) st))) := by
    rw [processDir.eq_def]
    simp [hstat, createErrorDir, logEvent]
  refine ⟨h1, ?_, ?_, fun entries st2 =>
    scanChildren_files_length fuel cfg env p entries st2⟩ <;>
    rw [h1] <;> simp [logEvent]

theorem processDir_stat_error_witness :
    (processDir 1 sampleCfg sampleEnv "/b" sampleSt).fst.getFlag = '!' ∧
    (processDir 1 sampleCfg sampleEnv "/b" sampleSt).fst.filesOf = [] ∧
    (processDir 1 sampleCfg sampleEnv "/b" sampleSt).fst.itemCountOf = 0 ∧
    (processDir 1 sampleCfg sampleEnv "/b" sampleSt).snd.stats =
      sampleSt.stats := by
  have h := processDir_stat_error 0 sampleCfg sampleEnv "/b" sampleSt rfl
  refine ⟨?_, ?_, ?_, h.2.1⟩ <;> rw [h.1] <;> rfl

/-- C10: every error DirNode — from the walker on stat failure or from
the facade on store-open failure — has item count 0 and an empty child
list: it does not count itself as one item, unlike successfully scanned
directories, whose item count follows the descendants-plus-one
convention (1 for self plus each directory child's item count plus 1 per
file child). -/
theorem errorDir_itemCount_contrast (fuel : Nat) (cfg : Cfg) (env : Env)
    (p : String) (st : St) :
    ((createErrorDir p st).fst.itemCountOf = 0 ∧
     (createErrorDir p st).fst.filesOf = [] ∧
     (createErrorDir p st).fst.getFlag = '!') ∧
    (env.openFails = true →
      (AnalyzeDir cfg env fuel p).fst.itemCountOf = 0 ∧
      (AnalyzeDir cfg env fuel p).fst.filesOf = [] ∧
      (AnalyzeDir cfg env fuel p).fst.getFlag = '!') ∧
    ((performFullScan fuel cfg env p st).fst.itemCountOf =
      1 + itemSum (performFullScan fuel cfg env p st).fst.filesOf) := by
  refine ⟨?_, fun hopen => ?_, ?_⟩
  · simp [createErrorDir, FsItem.itemCountOf, FsItem.filesOf, FsItem.getFlag]
  · simp [AnalyzeDir, hopen, FsItem.itemCountOf, FsItem.filesOf,
      FsItem.getFlag]
  · rw [performFullScan.eq_def]
    simp only [logEvent, FsItem.itemCountOf, FsItem.filesOf]
    have hl := scanChildren_itemCount_sum fuel cfg env p
      (env.readDir p).entries
      { store := st.store, stats := st.stats,
        events := st.events ++ [Event.readDirFS p] ++ [Event.statFS p] }
    omega

theorem errorDir_itemCount_contrast_witness :
    (AnalyzeDir sampleCfg failEnv 1 "/a").fst.itemCountOf = 0 ∧
    (AnalyzeDir sampleCfg failEnv 1 "/a").fst.filesOf = [] ∧
    (AnalyzeDir sampleCfg failEnv 1 "/a").fst.getFlag = '!' ∧
    (performFullScan 1 sampleCfg sampleEnv "/a" sampleSt).fst.itemCountOf
      = 1 + itemSum
        (performFullScan 1 sampleCfg sampleEnv "/a" sampleSt).fst.filesOf := by
  have h1 := (errorDir_itemCount_contrast 1 sampleCfg failEnv "/a"
    sampleSt).2.1 rfl
  have h2 := (errorDir_itemCount_contrast 1 sampleCfg sampleEnv "/a"
    sampleSt).2.2
  exact ⟨h1.1, h1.2.1, h1.2.2, h2⟩

theorem rebuildChildren_all_files (fuel : Nat) (cfg : Cfg) (env : Env)
    (pp : String) (fms : List FileMetadata) (st : St)
    (hall : ∀ fm ∈ fms, fm.isDir = false) :
    rebuildChildren fuel cfg env pp fms st =
      (fms.map fun f =>
        FsItem.file f.name f.size f.usage f.mtime f.flag f.mli, st) := by
  induction fms generalizing st with
  | nil => rw [rebuildChildren.eq_def]; simp
  | cons fm rest ih =>
    have hfm : fm.isDir = false := hall fm (by simp)
    have hrest : ∀ fm2 ∈ rest, fm2.isDir = false :=
      fun fm2 hm => hall fm2 (by simp [hm])
    rw [rebuildChildren.eq_def]
    simp only []
    rw [rebuildChild.eq_def]
    simp only [hfm, Bool.false_eq_true, reduceIte]
    rw [ih st hrest]
    simp

/-- C4: in REBUILD_FROM_CACHE, a file child is instantiated directly
from the stored child metadata, with no filesystem read, no cache lookup
and no change to the walker state at all; a directory child is loaded
directly from the store — on success the walker recurses into
REBUILD_FROM_CACHE on the loaded record, and only when that load fails
does it fall back to the per-directory state machine processDir, which
is the only entry into the state machine from inside the rebuild;
consequently a record all of whose children are files is rebuilt with no
filesystem event, no load and no state-machine entry — only its progress
message is emitted. -/
theorem rebuildChild_structure (fuel : Nat) (cfg : Cfg) (env : Env)
    (pp : String) (fm : FileMetadata) (st : St)
    (r : IncrementalDirMetadata) :
    (fm.isDir = false →
      rebuildChild fuel cfg env pp fm st =
        (.file fm.name fm.size fm.usage fm.mtime fm.flag fm.mli, st)) ∧
    (fm.isDir = true →
      ∀ cc, loadOpen st.store (joinPath pp fm.name) = Except.ok cc →
        rebuildChild fuel cfg env pp fm st =
          rebuildFromCache fuel cfg env cc
            (logEvent (.storeLoad (joinPath pp fm.name)) st)) ∧
    (fm.isDir = true →
      ∀ e, loadOpen st.store (joinPath pp fm.name) = Except.error e →
        rebuildChild fuel cfg env pp fm st =
          processDir fuel cfg env (joinPath pp fm.name)
            (logEvent (.storeLoad (joinPath pp fm.name)) st)) ∧
    ((∀ fm2 ∈ r.files, fm2.isDir = false) →
      rebuildFromCache (fuel + 1) cfg env r st =
        (.dir (filepathBase r.path) r.size r.usage r.mtime r.flag
          (filepathDir r.path) r.itemCount
          (r.files.map fun f2 =>
            FsItem.file f2.name f2.size f2.usage f2.mtime f2.flag f2.mli),
         logEvent (.progress r.path) st)) := by
  refine ⟨fun hfm => ?_, fun hfm cc hload => ?_, fun hfm e hload => ?_,
          fun hall => ?_⟩
  · rw [rebuildChild.eq_def]
    simp [hfm]
  · rw [rebuildChild.eq_def]
    simp [hfm, logEvent, hload]
  · rw [rebuildChild.eq_def]
    simp [hfm, logEvent, hload]
  · rw [rebuildFromCache.eq_def]
    simp only []
    rw [rebuildChildren_all_files fuel cfg env r.path r.files st hall]

theorem rebuildChild_structure_witness :
    rebuildChild 1 sampleCfg sampleEnv "/a"
        { name := "f", isDir := false, size := 3, usage := 4,
          mtime := ⟨1, 2⟩, flag := ' ', mli := 0 } sampleSt =
      (.file "f" 3 4 ⟨1, 2⟩ ' ' 0, sampleSt) ∧
    rebuildChild 1 sampleCfg sampleEnv "/a"
        { name := "d", isDir := true, size := 4, usage := 4,
          mtime := ⟨3, 4⟩, flag := ' ', mli := 0 } nestedSt =
      rebuildFromCache 1 sampleCfg sampleEnv childRecord
        (logEvent (.storeLoad "/a/d") nestedSt) ∧
    (rebuildFromCache 1 sampleCfg sampleEnv hitRecord hitSt).snd =
      logEvent (.progress "/a") hitSt := by
  refine ⟨?_, ?_, ?_⟩
  · exact (rebuildChild_structure 1 sampleCfg sampleEnv "/a"
      { name := "f", isDir := false, size := 3, usage := 4,
        mtime := ⟨1, 2⟩, flag := ' ', mli := 0 } sampleSt sampleRecord).1 rfl
  · exact (rebuildChild_structure 1 sampleCfg sampleEnv "/a"
      { name := "d", isDir := true, size := 4, usage := 4,
        mtime := ⟨3, 4⟩, flag := ' ', mli := 0 } nestedSt sampleRecord).2.1
      rfl childRecord rfl
  · have h := (rebuildChild_structure 0 sampleCfg sampleEnv "/a"
      { name := "f", isDir := false, size := 3, usage := 4,
        mtime := ⟨1, 2⟩, flag := ' ', mli := 0 } hitSt hitRecord).2.2.2
      (by decide)
    rw [h]
    rfl

theorem forcePreserved_refl (st : St) : forcePreserved st st := ⟨rfl, rfl⟩

theorem forcePreserved_trans {a b c : St} (h1 : forcePreserved a b)
    (h2 : forcePreserved b c) : forcePreserved a c :=
  ⟨h2.1.trans h1.1, h2.2.trans h1.2⟩

theorem forcePreserved_logEvent (e : Event) (st : St)
    (he : isStoreLoadEv e = false) : forcePreserved st (logEvent e st) := by
  refine ⟨rfl, ?_⟩
  simp [logEvent, countLoads, he]

theorem forcePreserved_modStats (f : CacheStats → CacheStats) (st : St)
    (hf : (f st.stats).cacheHits = st.stats.cacheHits) :
    forcePreserved st (modStats f st) := ⟨hf, rfl⟩

theorem forcePreserved_storeWrite (meta : IncrementalDirMetadata)
    (st : St) : forcePreserved st (storeWriteOp meta st) := by
  refine ⟨rfl, ?_⟩
  simp [storeWriteOp, logEvent, countLoads, isStoreLoadEv]

theorem force_scanChildren_pres (fuel : Nat) (cfg : Cfg) (env : Env)
    (hproc : ∀ p st, forcePreserved st (processDir fuel cfg env p st).snd) :
    ∀ (path : String) (entries : List DirEntry) (st : St),
      forcePreserved st (scanChildren fuel cfg env path entries st).snd := by
  intro path entries
  induction entries with
  | nil =>
    intro st
    rw [scanChildren.eq_def]
    exact forcePreserved_refl st
  | cons e rest ih =>
    intro st
    rw [scanChildren.eq_def]
    match e with
    | .dirE name =>
      by_cases hig : cfg.ignoreDir name (joinPath path name)
      · simp only [hig, reduceIte]
        exact ih st
      · simp only [hig, Bool.false_eq_true, reduceIte]
        rcases h1 : processDir fuel cfg env (joinPath path name) st
          with ⟨sub, st2⟩
        rcases h2 : scanChildren fuel cfg env path rest st2 with ⟨acc, st3⟩
        have p1 := hproc (joinPath path name) st
        rw [h1] at p1
        have p2 := ih st2
        rw [h2] at p2
        exact forcePreserved_trans p1 p2
    | .fileE name none =>
      simp only []
      exact ih st
    | .fileE name (some fi) =>
      simp only []
      rcases h2 : scanChildren fuel cfg env path rest st with ⟨acc, st3⟩
      have p2 := ih st
      rw [h2] at p2
      exact p2

theorem force_performFullScan_pres (fuel : Nat) (cfg : Cfg) (env : Env)
    (hchild : ∀ path entries st,
      forcePreserved st (scanChildren fuel cfg env path entries st).snd) :
    ∀ p st, forcePreserved st (performFullScan fuel cfg env p st).snd := by
  intro p st
  rw [performFullScan.eq_def]
  simp only [logEvent]
  rcases h : scanChildren fuel cfg env p (env.readDir p).entries
      { store := st.store, stats := st.stats,
        events := st.events ++ [Event.readDirFS p] ++ [Event.statFS p] }
    with ⟨acc, st2⟩
  have hc := hchild p (env.readDir p).entries
    { store := st.store, stats := st.stats,
      events := st.events ++ [Event.readDirFS p] ++ [Event.statFS p] }
  rw [h] at hc
  have pre : forcePreserved st
      (logEvent (.statFS p) (logEvent (.readDirFS p) st)) :=
    forcePreserved_trans (forcePreserved_logEvent (.readDirFS p) st rfl)
      (forcePreserved_logEvent (.statFS p) (logEvent (.readDirFS p) st) rfl)
  exact forcePreserved_trans (forcePreserved_trans pre hc)
    (forcePreserved_logEvent (.progress p) st2 rfl)

theorem force_scanAndCache_pres (fuel : Nat) (cfg : Cfg) (env : Env)
    (hperf : ∀ p st,
      forcePreserved st (performFullScan fuel cfg env p st).snd) :
    ∀ p m st, forcePreserved st (scanAndCache fuel cfg env p m st).snd := by
  intro p m st
  rw [scanAndCache.eq_def]
  rcases h : performFullScan fuel cfg env p st with ⟨dir, st1⟩
  have hp := hperf p st
  rw [h] at hp
  simp only []
  exact forcePreserved_trans hp (forcePreserved_trans
    (forcePreserved_storeWrite _ st1) (forcePreserved_modStats _ _ rfl))

theorem force_processDir_pres (cfg : Cfg) (env : Env)
    (hforce : cfg.forceFullScan = true) :
    ∀ fuel p st, forcePreserved st (processDir fuel cfg env p st).snd := by
  intro fuel
  induction fuel with
  | zero =>
    intro p st
    rw [processDir.eq_def]
    exact forcePreserved_refl st
  | succ g ih =>
    have hchild := force_scanChildren_pres g cfg env ih
    have hperf := force_performFullScan_pres g cfg env hchild
    have hscan := force_scanAndCache_pres g cfg env hperf
    intro p st
    rw [processDir.eq_def]
    simp only [hforce, reduceIte]
    cases hstat : env.stat p with
    | none =>
      simp only [createErrorDir]
      exact forcePreserved_trans
        (forcePreserved_trans
          (forcePreserved_logEvent (.procDir p) st rfl)
          (forcePreserved_logEvent (.statFS p)
            (logEvent (.procDir p) st) rfl))
        (forcePreserved_logEvent (.progress p)
          (logEvent (.statFS p) (logEvent (.procDir p) st)) rfl)
    | some info =>
      simp only []
      exact forcePreserved_trans
        (forcePreserved_trans
          (forcePreserved_trans
            (forcePreserved_logEvent (.procDir p) st rfl)
            (forcePreserved_logEvent (.statFS p)
              (logEvent (.procDir p) st) rfl))
          (forcePreserved_modStats CacheStats.incDirsRescanned
            (logEvent (.statFS p) (logEvent (.procDir p) st)) rfl))
        (hscan p info.mtime
          (modStats CacheStats.incDirsRescanned
            (logEvent (.statFS p) (logEvent (.procDir p) st))))

/-- C6: with force_full_scan set, every directory whose stat succeeds
increments dirs_rescanned and runs SCAN_AND_CACHE directly — without
consulting the cache; across any walk the cache-hit counter never moves
and no cache load is ever issued, so a run started by AnalyzeDir (whose
statistics start at zero) ends with cache_hits = 0. -/
theorem force_full_scan_behaviour (cfg : Cfg) (env : Env)
    (hforce : cfg.forceFullScan = true) :
    (∀ fuel p st info, env.stat p = some info →
      processDir (fuel + 1) cfg env p st =
        scanAndCache fuel cfg env p info.mtime
          (modStats CacheStats.incDirsRescanned
            (logEvent (.statFS p) (logEvent (.procDir p) st)))) ∧
    (∀ fuel p st,
      (processDir fuel cfg env p st).snd.stats.cacheHits =
        st.stats.cacheHits ∧
      countLoads (processDir fuel cfg env p st).snd.events =
        countLoads st.events) ∧
    (∀ fuel p, env.openFails = false →
      (AnalyzeDir cfg env fuel p).snd.stats.cacheHits = 0) := by
  have hpres := force_processDir_pres cfg env hforce
  refine ⟨fun fuel p st info hstat => ?_, fun fuel p st => hpres fuel p st,
    fun fuel p hopen => ?_⟩
  · rw [processDir.eq_def]
    simp [hstat, hforce, logEvent, modStats]
  · rw [AnalyzeDir]
    simp only [hopen, Bool.false_eq_true, reduceIte]
    rcases h : processDir fuel cfg env p
        { store := env.initialStore,
          stats := { NewCacheStats with scanStartTime := env.now },
          events := [] } with ⟨dir, st1⟩
    have hp := hpres fuel p
      { store := env.initialStore,
        stats := { NewCacheStats with scanStartTime := env.now },
        events := [] }
    rw [h] at hp
    simpa [modStats, NewCacheStats] using hp.1

theorem force_full_scan_behaviour_witness :
    (AnalyzeDir forceCfg sampleEnv 3 "/a").snd.stats.cacheHits = 0 ∧
    (processDir 3 forceCfg sampleEnv "/a" sampleSt).snd.stats.cacheHits
      = 0 := by
  have h := force_full_scan_behaviour forceCfg sampleEnv rfl
  refine ⟨h.2.2 3 "/a" rfl, ?_⟩
  rw [(h.2.1 3 "/a" sampleSt).1]
  rfl
